import Mathlib

/-!
Verification of the ABC-MRT16 speech-intelligibility estimator (`abcmrt/ABC_MRT16.py`)
against its natural-language specification.

The Python source is shallowly embedded:

* filenames are Lean `String`s; the regex search of `file2number`,
  `re.search(r"([MF]\d)_b(\d+)_w(\d+)", name)`, is embedded as an explicit
  leftmost-match scanner over the character list (each `\d+` group of the pattern is
  followed by a non-digit literal, so greedy scanning agrees with regex
  backtracking);
* the IEEE-double arithmetic of the estimator's control flow is embedded over `ℚ`;
  a floating NaN is represented by `Option` (`none` = NaN) exactly at the places the
  source can produce or test one: the normalized autocorrelation minimum `xcm`, the
  per-trial success values, the batch mean and the final `phi_hat`;
* the row normalizer `_TFnorm` and the aligner `_group_corr`, whose arithmetic
  involves square roots, are embedded over `ℝ`, with matrices as functions
  `ℕ → ℕ → ℝ` together with explicit row/column counts.  Mathlib's total-division
  convention `x / 0 = 0` stands in for numpy's NaN there; theorems about the
  aligner carry explicit non-degeneracy hypotheses (no constant slice row) under
  which the source computes no NaN either, so the two semantics coincide on all
  covered inputs, and `np.nanargmax` is embedded as the first index attaining the
  maximum, which is its behaviour on NaN-free data;
* the word scorer of `process` (the steps using the FFT and the 1200 bundled
  binary `.mat` templates, which are packaged data, not source) enters the
  estimator embedding as an opaque function parameter `scorer`: every claim
  settled against the estimator concerns only its control flow, which is embedded
  in full, and holds for every scorer.
-/

namespace ABCMRT

set_option maxRecDepth 8000

/-! ## File numbering: `file2number` (ABC_MRT16.py 201-246),
`number2file` (249-284), `file_order` (287-416) -/

/-- The talker tuple `("F1", "F3", "M3", "M4")` used by `file2number` and
`number2file`. -/
def talkers : List String := ["F1", "F3", "M3", "M4"]

/-- Value of a decimal digit character list, most significant digit first: what
`int()` computes on a matched `\d+` group. -/
def digitsVal (ds : List Char) : ℕ :=
  ds.foldl (fun a c => 10 * a + (c.toNat - 48)) 0

/-- Greedy run of digits at the head of a character list, paired with the rest.
Embeds a `\d+` group that the pattern follows with a non-digit literal. -/
def takeDigits : List Char → List Char × List Char
  | [] => ([], [])
  | c :: cs =>
    if c.isDigit then
      let p := takeDigits cs
      (c :: p.1, p.2)
    else ([], c :: cs)

/-- Match `([MF]\d)_b(\d+)_w(\d+)` anchored at the head of the character list,
returning the captured talker string and the numeric values of the batch and word
digit groups. -/
def matchMRTAt : List Char → Option (String × ℕ × ℕ)
  | t1 :: t2 :: '_' :: 'b' :: rest =>
    if (t1 = 'M' ∨ t1 = 'F') ∧ t2.isDigit then
      let pb := takeDigits rest
      if pb.1 = [] then none
      else
        match pb.2 with
        | '_' :: 'w' :: rest2 =>
          let pw := takeDigits rest2
          if pw.1 = [] then none
          else some (⟨[t1, t2]⟩, digitsVal pb.1, digitsVal pw.1)
        | _ => none
    else none
  | _ => none

/-- Leftmost match of `([MF]\d)_b(\d+)_w(\d+)` in a character list: the embedding
of `re.search` for this pattern. -/
def searchMRT : List Char → Option (String × ℕ × ℕ)
  | [] => none
  | c :: cs =>
    match matchMRTAt (c :: cs) with
    | some r => some r
    | none => searchMRT cs

/-- `os.path.basename`: the part of the path after the last separator. -/
def basename (s : List Char) : List Char :=
  ((s.reverse).takeWhile (fun c => c ≠ '/')).reverse

/-- `file2number(file)`: strip directory components, search the name for
`([MF]\d)_b(\d+)_w(\d+)`, look the talker up in `("F1","F3","M3","M4")` (`none`
embeds the `None` returned on a missing match or a `ValueError` from
`tuple.index`), and return `talker_index*300 + (batch - 1)*6 + word`. -/
def file2number (file : String) : Option ℤ :=
  match searchMRT (basename file.data) with
  | none => none
  | some (t, batch, word) =>
    match talkers.findIdx? (fun s => s = t) with
    | none => none
    | some talker_index => some (talker_index * 300 + ((batch : ℤ) - 1) * 6 + word)

/-- Decimal digit characters of `n`, most significant first, by fuel-bounded
division (the fuel argument only makes the recursion structural; `n` itself is
always enough fuel). -/
def natCharsAux : ℕ → ℕ → List Char
  | 0, _ => []
  | _ + 1, 0 => []
  | fuel + 1, n + 1 => natCharsAux fuel ((n + 1) / 10) ++ [Char.ofNat (48 + (n + 1) % 10)]

/-- Decimal digit characters of `n`, most significant first: the embedding of
Python's string formatting of a nonnegative integer. -/
def natChars (n : ℕ) : List Char := natCharsAux n n

/-- `number2file(num)`: `none` embeds the `ValueError` raised when `num` is
outside 1..1200; otherwise the name `{talker}_b{batch}_w{word}.wav` computed from
the floor divisions and remainders of the source. -/
def number2file (num : ℤ) : Option String :=
  if num < 1 ∨ 1200 < num then none
  else
    let n : ℕ := num.toNat
    let N_words : ℕ := 50 * 6
    let talker_index : ℕ := (n - 1) / N_words
    let talker_offset : ℕ := (n - 1) % N_words + 1
    let batch_index : ℕ := (talker_offset - 1) / 6 + 1
    let word_index : ℕ := (n - 1) % 6 + 1
    some ⟨(talkers.getD talker_index "").data ++
      ('_' :: 'b' :: natChars batch_index) ++
      ('_' :: 'w' :: natChars word_index) ++ ['.', 'w', 'a', 'v']⟩

/-- The fixed 1200-entry table returned by `file_order()` (ABC_MRT16.py 314-414),
transcribed verbatim. -/
def file_order : List ℕ := [
    232, 393, 1068, 729, 230, 470, 910, 831, 288, 562, 1174, 632,
    237, 452, 955, 885, 7, 515, 1119, 838, 92, 545, 1038, 658,
    126, 600, 1045, 694, 10, 505, 1063, 864, 264, 405, 1113, 870,
    104, 540, 1105, 856, 111, 431, 1086, 853, 261, 430, 1142, 670,
    223, 343, 1065, 690, 91, 570, 1173, 741, 279, 364, 1128, 787,
    239, 548, 1076, 634, 55, 372, 911, 898, 190, 315, 935, 624,
    11, 437, 1073, 899, 229, 583, 1110, 620, 58, 380, 907, 731,
    253, 527, 1047, 604, 138, 519, 1176, 692, 51, 336, 1008, 883,
    43, 322, 1094, 719, 135, 346, 1067, 605, 73, 386, 995, 852,
    116, 567, 1131, 665, 83, 318, 974, 782, 18, 304, 1035, 644,
    65, 435, 968, 747, 78, 558, 957, 797, 134, 508, 927, 684,
    79, 512, 1044, 752, 269, 523, 914, 681, 56, 598, 1170, 863,
    194, 327, 986, 699, 278, 553, 1198, 778, 87, 469, 1077, 613,
    33, 363, 1186, 619, 248, 467, 1147, 647, 93, 493, 1134, 611,
    179, 348, 1029, 637, 98, 533, 1034, 725, 256, 373, 1020, 742,
    182, 411, 904, 735, 131, 561, 912, 674, 160, 599, 1157, 892,
    42, 530, 1064, 846, 35, 537, 973, 607, 5, 459, 958, 614,
    21, 433, 1049, 862, 287, 378, 1054, 738, 169, 366, 949, 859,
    30, 588, 1175, 889, 45, 522, 1200, 783, 71, 451, 1015, 877,
    90, 310, 953, 779, 119, 547, 963, 625, 147, 463, 1096, 643,
    69, 303, 921, 734, 240, 455, 903, 745, 227, 499, 919, 786,
    296, 355, 1059, 851, 198, 531, 1071, 888, 299, 338, 1166, 645,
    53, 389, 1033, 775, 174, 555, 1006, 636, 32, 528, 1193, 649,
    110, 595, 1108, 823, 188, 388, 1167, 679, 15, 368, 1053, 816,
    241, 395, 970, 628, 60, 449, 985, 746, 123, 311, 925, 763,
    189, 482, 1120, 895, 38, 396, 1101, 689, 102, 385, 1005, 688,
    149, 413, 1090, 672, 39, 453, 1195, 821, 96, 399, 1060, 654,
    206, 438, 1050, 873, 6, 471, 1000, 798, 81, 542, 1039, 790,
    176, 546, 1155, 618, 72, 342, 1004, 715, 209, 485, 965, 696,
    66, 305, 1130, 847, 20, 302, 972, 805, 224, 502, 1125, 865,
    291, 323, 1042, 606, 254, 432, 1103, 837, 244, 481, 1055, 891,
    136, 574, 983, 768, 105, 337, 952, 834, 178, 436, 1014, 811,
    27, 448, 971, 615, 75, 325, 984, 900, 17, 365, 1152, 602,
    211, 447, 946, 663, 202, 458, 1082, 820, 108, 592, 1168, 667,
    273, 320, 908, 617, 24, 359, 1153, 718, 88, 356, 1137, 609,
    225, 424, 1019, 621, 124, 333, 1021, 784, 29, 575, 1124, 722,
    50, 503, 928, 650, 4, 367, 937, 836, 300, 406, 1080, 874,
    3, 466, 948, 673, 228, 301, 966, 867, 243, 560, 967, 802,
    270, 410, 1148, 770, 193, 489, 962, 815, 120, 312, 1017, 695,
    294, 525, 1074, 845, 62, 507, 964, 794, 74, 496, 1140, 832,
    155, 397, 933, 603, 238, 423, 1159, 677, 250, 416, 1066, 732,
    140, 468, 1189, 709, 213, 351, 1143, 793, 284, 500, 1129, 796,
    231, 591, 943, 861, 137, 513, 924, 635, 222, 554, 1112, 601,
    205, 349, 1139, 622, 59, 381, 1056, 693, 185, 426, 1133, 739,
    121, 326, 1185, 855, 268, 417, 1081, 702, 25, 510, 1144, 764,
    196, 371, 1156, 894, 207, 403, 956, 785, 272, 335, 994, 707,
    181, 573, 1115, 814, 118, 314, 1095, 659, 247, 543, 1085, 766,
    67, 306, 1037, 743, 106, 441, 989, 765, 129, 509, 990, 887,
    9, 572, 1197, 882, 28, 439, 1031, 881, 285, 324, 1199, 843,
    41, 375, 1183, 698, 113, 421, 1190, 753, 258, 587, 1135, 827,
    221, 370, 1180, 686, 165, 552, 1093, 701, 19, 520, 960, 705,
    1, 332, 930, 849, 46, 404, 1111, 676, 86, 425, 1003, 675,
    167, 358, 981, 803, 82, 345, 939, 767, 141, 532, 1002, 750,
    54, 487, 1132, 835, 122, 420, 961, 840, 12, 490, 901, 869,
    40, 462, 906, 876, 22, 565, 916, 733, 34, 446, 1016, 875,
    130, 422, 920, 809, 133, 491, 1122, 706, 95, 392, 1181, 700,
    262, 394, 1041, 669, 13, 414, 918, 662, 297, 504, 1136, 612,
    293, 486, 1024, 854, 283, 564, 1179, 780, 49, 461, 1123, 668,
    186, 450, 1163, 710, 94, 475, 950, 751, 215, 328, 1010, 817,
    281, 353, 1026, 776, 180, 580, 932, 757, 26, 494, 1048, 848,
    245, 473, 945, 826, 36, 480, 1187, 703, 208, 347, 922, 655,
    85, 506, 1165, 858, 84, 495, 1164, 657, 242, 511, 1107, 866,
    101, 369, 977, 812, 267, 402, 1011, 781, 277, 549, 1092, 829,
    107, 465, 1087, 850, 226, 443, 1098, 656, 195, 568, 1036, 726,
    233, 377, 1072, 748, 263, 445, 942, 841, 212, 362, 917, 661,
    197, 418, 1062, 756, 217, 400, 1178, 680, 151, 581, 1075, 744,
    158, 390, 1091, 758, 117, 484, 1114, 691, 168, 488, 1069, 685,
    164, 354, 1106, 652, 109, 586, 941, 678, 187, 419, 1127, 740,
    114, 407, 1145, 804, 172, 563, 1089, 736, 77, 309, 1028, 789,
    163, 412, 1079, 806, 139, 516, 905, 721, 286, 517, 1100, 819,
    89, 440, 1078, 697, 153, 539, 1154, 626, 31, 360, 1102, 727,
    57, 341, 1109, 687, 234, 529, 1177, 818, 112, 340, 1184, 683,
    298, 329, 999, 860, 218, 429, 1032, 801, 44, 571, 1057, 724,
    246, 387, 926, 642, 97, 374, 1083, 671, 16, 566, 951, 760,
    152, 556, 1023, 714, 132, 313, 1097, 641, 184, 357, 1138, 711,
    143, 376, 1158, 791, 70, 307, 1118, 761, 260, 534, 982, 871,
    68, 589, 1104, 651, 157, 478, 1196, 795, 252, 541, 940, 828,
    154, 409, 923, 716, 183, 476, 1099, 886, 249, 474, 969, 897,
    251, 401, 1009, 830, 290, 352, 938, 728, 216, 316, 1161, 629,
    292, 308, 1116, 666, 236, 524, 1027, 755, 204, 536, 959, 842,
    144, 501, 979, 825, 37, 331, 1058, 712, 48, 384, 1149, 627,
    14, 569, 1001, 762, 173, 582, 1188, 844, 148, 557, 997, 810,
    23, 319, 1169, 723, 265, 428, 1040, 788, 170, 492, 929, 769,
    259, 514, 1182, 759, 274, 350, 993, 737, 257, 334, 975, 833,
    201, 464, 1084, 772, 255, 434, 947, 749, 125, 577, 936, 730,
    266, 383, 1146, 708, 156, 579, 980, 717, 99, 330, 944, 660,
    171, 361, 1051, 610, 47, 596, 915, 648, 127, 454, 1061, 890,
    219, 584, 1030, 896, 235, 518, 998, 839, 52, 460, 1162, 773,
    271, 521, 1126, 878, 275, 408, 1192, 631, 100, 578, 978, 893,
    282, 483, 1025, 704, 289, 576, 1141, 608, 146, 457, 1172, 774,
    103, 498, 987, 777, 276, 550, 1013, 884, 177, 479, 934, 813,
    142, 544, 1088, 638, 145, 593, 1043, 808, 150, 339, 931, 868,
    166, 477, 996, 664, 199, 551, 1012, 807, 220, 597, 1117, 880,
    115, 398, 1171, 879, 61, 317, 1160, 799, 63, 497, 976, 623,
    159, 472, 1046, 824, 128, 344, 1121, 653, 191, 535, 1150, 771,
    295, 594, 902, 633, 200, 590, 1070, 754, 161, 321, 1007, 800,
    175, 379, 1191, 720, 64, 526, 1052, 630, 80, 415, 1018, 872,
    203, 427, 954, 640, 162, 444, 1022, 639, 76, 559, 991, 857,
    214, 391, 992, 792, 210, 442, 1151, 646, 192, 382, 909, 822,
    2, 538, 913, 616, 280, 456, 1194, 682, 8, 585, 988, 713]

/-- Linear scan checking that every element of the list lies in 1..1200 and
that no element repeats, tracking the values already seen as set bits of the
accumulator (bit `x - 1` stands for value `x`).  Used only to check by one
evaluation that `file_order` is duplicate-free and in range; its soundness is
proved generically below. -/
def permChk : List ℕ → ℕ → Bool
  | [], _ => true
  | x :: xs, acc =>
    (1 ≤ x && x ≤ 1200) && !(acc.testBit (x - 1)) &&
      permChk xs (acc ||| 2 ^ (x - 1))

/-! ## Band map `AI` (`_makeAI`, ABC_MRT16.py 133-198) -/

/-- The fixed AI band boundary table `AIlims` (first FFT bin, last FFT bin),
1-based, transcribed verbatim. -/
def AIlims : List (ℕ × ℕ) :=
  [(4, 4), (5, 6), (7, 7), (8, 9), (10, 11), (12, 13), (14, 15), (16, 17),
   (18, 19), (20, 21), (22, 23), (24, 26), (27, 28), (29, 31), (32, 35),
   (36, 40), (41, 45), (46, 52), (53, 62), (63, 76), (77, 215)]

/-- The 21×215 band-map matrix built by `_makeAI`: starting from zeros, row `k`
is set to 1 on the 0-based column range `[firstfreq-1, lastfreq)`.  Entry
`AI k j` is row `k` (0-based band index), column `j` (0-based FFT bin index).
The matrix is 0/1-valued, so its float entries are embedded exactly as `ℕ`. -/
def AI (k j : ℕ) : ℕ :=
  let lims := AIlims.getD k (0, 0)
  if lims.1 - 1 ≤ j ∧ j < lims.2 then 1 else 0

/-- Column sum of `AI` (the per-bin total over the 21 bands). -/
def colSum (j : ℕ) : ℕ := ((List.range 21).map (fun k => AI k j)).sum

/-- Row sum of `AI` (`binsPerBand`, ABC_MRT16.py 198: the per-band bin count). -/
def rowSum (k : ℕ) : ℕ := ((List.range 215).map (fun j => AI k j)).sum

/-! ## Estimator control flow over `ℚ` (`process`, ABC_MRT16.py 476-624) -/

/-- `_padSpeech` (ABC_MRT16.py 627-660): pad the clip with trailing zeros to the
minimum length 42000. -/
def padSpeech (s : List ℚ) : List ℚ :=
  if s.length < 42000 then s ++ List.replicate (42000 - s.length) 0 else s

/-- `np.inner(s, s)`: the zero-lag autocorrelation energy. -/
def innerSelf (s : List ℚ) : ℚ := (s.map (fun x => x * x)).sum

/-- Autocorrelation of `s` at nonnegative lag `j`:
`sum over i of s[i] * s[i + j]` (out-of-range samples read as 0). -/
def lagCorr (s : List ℚ) (j : ℕ) : ℚ :=
  ∑ i ∈ Finset.range s.length, s.getD i 0 * s.getD (i + j) 0

/-- `scipy.signal.correlate(s, s, mode="full")`: the 2n−1 autocorrelation values
at lags −(n−1)..(n−1); entry `k` is the value at lag `k − (n−1)`, which for an
autocorrelation of a real signal equals `lagCorr` at the lag's absolute value. -/
def fullCorr (s : List ℚ) : List ℚ :=
  (List.range (2 * s.length - 1)).map
    (fun (k : ℕ) => lagCorr s (((k : ℤ) - ((s.length : ℤ) - 1)).natAbs))

/-- `np.min` of a nonempty list (the `[]` case never arises from `fullCorr` of a
padded clip). -/
def npMin : List ℚ → ℚ
  | [] => 0
  | x :: xs => xs.foldl min x

/-- `xcm`: the minimum of the full autocorrelation normalized by the zero-lag
energy (ABC_MRT16.py 557).  Over `ℚ`, `innerSelf s = 0` holds exactly when `s`
is all zeros, in which case every entry of the normalized array is numpy's
`0/0 = NaN` and `np.min` returns NaN: that is the `none` branch.  Otherwise no
entry is NaN and the minimum is an ordinary number. -/
def xcm (s : List ℚ) : Option ℚ :=
  if innerSelf s = 0 then none
  else some (npMin ((fullCorr s).map (fun c => c / innerSelf s)))

/-- Which of the three branches of the per-trial loop body of `process`
(ABC_MRT16.py 546-619) a trial takes: the NaN branch (`np.size(speech[k]) == 0
or math.isnan(file_num[k])`, line 548), the speech-not-detected branch
(`xcm > -0.1 or math.isnan(xcm)`, line 559), or the scoring branch. -/
inductive TrialBranch
  | nanTrial
  | gated
  | scored
deriving DecidableEq

/-- The branch taken for one trial.  The clip has already been padded by the
time the checks run (ABC_MRT16.py 544); `fileNum = none` embeds a NaN file
number. -/
def trialBranch (clip : List ℚ) (fileNum : Option ℤ) : TrialBranch :=
  let s := padSpeech clip
  if s.length = 0 ∨ fileNum = none then TrialBranch.nanTrial
  else
    match xcm s with
    | none => TrialBranch.gated
    | some v => if -(1 / 10) < v then TrialBranch.gated else TrialBranch.scored

/-- One trial's success value: NaN (`none`) on the NaN branch, 0 on the gated
branch, and the word scorer's value (steps 1-5 of the algorithm, abstracted as
the parameter `scorer` applied to the padded clip and the file number) on the
scoring branch. -/
def trialSuccess (scorer : List ℚ → ℤ → ℚ) (clip : List ℚ) (fileNum : Option ℤ) :
    Option ℚ :=
  match trialBranch clip fileNum with
  | TrialBranch.nanTrial => none
  | TrialBranch.gated => some 0
  | TrialBranch.scored =>
    match fileNum with
    | some n => some (scorer (padSpeech clip) n)
    | none => none

/-- Addition over values that may be NaN: any NaN operand poisons the
result. -/
def nanAdd : Option ℚ → Option ℚ → Option ℚ
  | some a, some b => some (a + b)
  | _, _ => none

/-- `np.sum` over values that may be NaN: any NaN poisons the sum. -/
def nanSum : List (Option ℚ) → Option ℚ
  | [] => some 0
  | o :: rest => nanAdd o (nanSum rest)

/-- `np.mean`: the poisoning sum divided by the length; the mean of an empty
array is numpy's `0/0 = NaN`. -/
def nanMean (l : List (Option ℚ)) : Option ℚ :=
  match nanSum l with
  | none => none
  | some s => if l.length = 0 then none else some (s / (l.length : ℚ))

/-- `guess_correction(intell) = (6/5) * (intell - 1/6)` (ABC_MRT16.py 419-451). -/
def guess_correction (intell : ℚ) : ℚ := (6 / 5) * (intell - 1 / 6)

/-- `process(speech, file_num)` (ABC_MRT16.py 476-624) after list wrapping: pad
each clip, score each (clip, file number) trial, and return
`(guess_correction(mean(success)), success)`.  `Option.map guess_correction`
embeds that `guess_correction` of a NaN mean is NaN. -/
def process (scorer : List ℚ → ℤ → ℚ) (speech : List (List ℚ))
    (file_num : List (Option ℤ)) : Option ℚ × List (Option ℚ) :=
  let success := (speech.zip file_num).map (fun p => trialSuccess scorer p.1 p.2)
  (Option.map guess_correction (nanMean success), success)

/-! ## Row normalizer `_TFnorm` (ABC_MRT16.py 704-735) and aligner `_group_corr`
(ABC_MRT16.py 738-794), over `ℝ`.  A matrix is a function `ℕ → ℕ → ℝ` (row,
column) together with explicit row/column counts. -/

/-- The row mean `div = np.sum(X, axis=1)/n` of `_TFnorm` for a width-`q`
matrix. -/
noncomputable def rowMean (q : ℕ) (S : ℕ → ℕ → ℝ) (a : ℕ) : ℝ :=
  (∑ t ∈ Finset.range q, S a t) / q

/-- The centered row sum of squares of `_TFnorm` (the argument of `np.sqrt` in
`temp`). -/
noncomputable def rowEnergy (q : ℕ) (S : ℕ → ℕ → ℝ) (a : ℕ) : ℝ :=
  ∑ t ∈ Finset.range q, (S a t - rowMean q S a) ^ 2

/-- `_TFnorm(X)` for a width-`q` matrix: subtract each row's mean, then divide
the row by the square root of its centered sum of squares. -/
noncomputable def TFnorm (q : ℕ) (S : ℕ → ℕ → ℝ) : ℕ → ℕ → ℝ :=
  fun a j => (S a j - rowMean q S a) / Real.sqrt (rowEnergy q S a)

/-- The width-`q` slice of `X` starting at column offset `i`:
`X[:, i : i + q]`. -/
def sliceAt {α : Type} (X : ℕ → ℕ → α) (i : ℕ) : ℕ → ℕ → α :=
  fun a j => X a (i + j)

/-- The running column sum `T_sum` of `_group_corr` as maintained by the loop:
at shift 0 the direct row sums of the slice, afterwards the previous sum minus
the dropped column plus the newly added column (ABC_MRT16.py 776-779). -/
noncomputable def runSum (X : ℕ → ℕ → ℝ) (q : ℕ) : ℕ → ℕ → ℝ
  | 0 => fun a => ∑ j ∈ Finset.range q, X a j
  | i + 1 => fun a => runSum X q i a - X a i + X a (i + q)

/-- The correlation score `C[i]` recorded by `_group_corr` at shift `i` for an
`r`-row matrix `X` against the width-`q` reference `R`, given the maintained
column sum `Tsum`: center the slice with `Tsum/q`, divide each row by the square
root of its sum of squares, and sum the entrywise product with `R`
(ABC_MRT16.py 781-789). -/
noncomputable def shiftScore (r q : ℕ) (X R : ℕ → ℕ → ℝ) (Tsum : ℕ → ℝ) (i : ℕ) :
    ℝ :=
  ∑ a ∈ Finset.range r, ∑ j ∈ Finset.range q,
    ((X a (i + j) - Tsum a / q) /
        Real.sqrt (∑ t ∈ Finset.range q, (X a (i + t) - Tsum a / q) ^ 2)) * R a j

/-- The score list `C` of `_group_corr` over all `n - q + 1` shifts, each score
computed from the incrementally maintained running sum. -/
noncomputable def groupCorrScores (r n q : ℕ) (X R : ℕ → ℕ → ℝ) : List ℝ :=
  (List.range (n - q + 1)).map (fun i => shiftScore r q X R (runSum X q i) i)

/-- `np.nanargmax` on NaN-free data: the first index attaining the maximum of
the list (getD reads out of range as 0; the defining set is nonempty for a
nonempty list, and `sInf` picks the first maximizer). -/
noncomputable def argmaxFirst (l : List ℝ) : ℕ :=
  sInf {i | i < l.length ∧ ∀ j < l.length, l.getD j 0 ≤ l.getD i 0}

/-- `_group_corr(X, R)`: the first shift maximizing the correlation, minus one
(ABC_MRT16.py 791-792). -/
noncomputable def group_corr (r n q : ℕ) (X R : ℕ → ℕ → ℝ) : ℤ :=
  (argmaxFirst (groupCorrScores r n q X R) : ℤ) - 1

/-- A concrete one-row spectrogram window, `[[0, 1, 0]]` on row 0, used to
instantiate the aligner theorems. -/
def X1 : ℕ → ℕ → ℝ := fun a j => if a = 0 ∧ j = 1 then 1 else 0

/-! ## Theorems -/

theorem permChk_bits : ∀ (l : List ℕ) (acc : ℕ), permChk l acc = true →
    ∀ y ∈ l, acc.testBit (y - 1) = false
  | [], _, _, y, hy => absurd hy (List.not_mem_nil y)
  | x :: xs, acc, h, y, hy => by
    rw [permChk, Bool.and_eq_true, Bool.and_eq_true] at h
    rcases List.mem_cons.mp hy with rfl | hy'
    · simpa using h.1.2
    · have := permChk_bits xs (acc ||| 2 ^ (x - 1)) h.2 y hy'
      rw [Nat.testBit_or, Bool.or_eq_false_iff] at this
      exact this.1

theorem permChk_sound : ∀ (l : List ℕ) (acc : ℕ), permChk l acc = true →
    l.Nodup ∧ ∀ x ∈ l, 1 ≤ x ∧ x ≤ 1200
  | [], _, _ => ⟨List.nodup_nil, fun x hx => absurd hx (List.not_mem_nil x)⟩
  | x :: xs, acc, h => by
    rw [permChk, Bool.and_eq_true, Bool.and_eq_true] at h
    obtain ⟨⟨hrange, _⟩, hrest⟩ := h
    obtain ⟨hnd, hbd⟩ := permChk_sound xs (acc ||| 2 ^ (x - 1)) hrest
    rw [Bool.and_eq_true] at hrange
    refine ⟨List.nodup_cons.mpr ⟨fun hmem => ?_, hnd⟩, fun y hy => ?_⟩
    · have hbit := permChk_bits xs (acc ||| 2 ^ (x - 1)) hrest x hmem
      rw [Nat.testBit_or] at hbit
      simp [Nat.testBit_two_pow_self] at hbit
    · rcases List.mem_cons.mp hy with rfl | hy'
      · exact ⟨by simpa using of_decide_eq_true hrange.1,
          by simpa using of_decide_eq_true hrange.2⟩
      · exact hbd y hy'

/-- C8: `file_order()` returns a sequence of exactly 1200 integers that is a
permutation of 1..1200: all elements are distinct and the set of elements is
exactly the integers 1 through 1200 (every such integer occurs). -/
theorem C8_file_order_permutation :
    file_order.length = 1200 ∧ file_order.Nodup ∧
      (∀ x ∈ file_order, 1 ≤ x ∧ x ≤ 1200) ∧
      ∀ m : ℕ, 1 ≤ m → m ≤ 1200 → m ∈ file_order := by
  have hchk : permChk file_order 0 = true := by decide
  have hlen : file_order.length = 1200 := by decide

  obtain ⟨hnd, hbd⟩ := permChk_sound file_order 0 hchk
  have hsub : file_order.toFinset ⊆ Finset.Icc 1 1200 := by
    intro x hx
    have := hbd x (List.mem_toFinset.mp hx)
    exact Finset.mem_Icc.mpr this
  have hcard : (Finset.Icc 1 1200).card ≤ file_order.toFinset.card := by
    rw [Nat.card_Icc, List.toFinset_card_of_nodup hnd, hlen]
  have heq := Finset.eq_of_subset_of_card_le hsub hcard
  refine ⟨hlen, hnd, hbd, fun m h1 h2 => ?_⟩
  have : m ∈ Finset.Icc 1 1200 := Finset.mem_Icc.mpr ⟨h1, h2⟩
  rw [← heq] at this
  exact List.mem_toFinset.mp this

theorem file2number_number2file_all :
    ((List.range 1200).all
      (fun k => (number2file ((k : ℤ) + 1)).bind file2number ==
        some ((k : ℤ) + 1))) = true := by
  decide

/-- C5: for every integer n with 1 ≤ n ≤ 1200,
`file2number (number2file n) = n`. -/
theorem C5_roundtrip (n : ℤ) (h1 : 1 ≤ n) (h2 : n ≤ 1200) :
    (number2file n).bind file2number = some n := by
  obtain ⟨k, hk, rfl⟩ : ∃ k : ℕ, k < 1200 ∧ n = (k : ℤ) + 1 :=
    ⟨(n - 1).toNat, by omega, by omega⟩
  have h := file2number_number2file_all
  rw [List.all_eq_true] at h
  exact eq_of_beq (h k (List.mem_range.mpr hk))

/-- C5 witness at n = 740 (the docstring's own example,
`M3_b24_w2`). -/
theorem C5_roundtrip_witness : (number2file 740).bind file2number = some 740 :=
  C5_roundtrip 740 (by norm_num) (by norm_num)

/-- C9: `file2number` validates only the pattern shape and the talker name, so
it is not injective on parseable filenames — `F1_b2_w1.wav` and `F1_b1_w7.wav`
are distinct but both map to 7 — and a parseable name with out-of-range batch
or word digits maps outside 1..1200 (`M4_b50_w7.wav` maps to 1201). -/
theorem C9_not_injective_out_of_range :
    file2number "F1_b2_w1.wav" = some 7 ∧
    file2number "F1_b1_w7.wav" = some 7 ∧
    "F1_b2_w1.wav" ≠ "F1_b1_w7.wav" ∧
    file2number "M4_b50_w7.wav" = some 1201 ∧
    ¬(1 ≤ (1201 : ℤ) ∧ (1201 : ℤ) ≤ 1200) := by
  exact ⟨by decide, by decide, by decide, by decide, by decide⟩

/-- C7: in the 21×215 band map, every column for FFT bins 4..215 sums to
exactly 1, the columns for bins 1..3 are all-zero in every band row, and each
row sum equals that band's bin count from the fixed boundary table. -/
theorem C7_band_map :
    (∀ j : ℕ, 3 ≤ j → j < 215 → colSum j = 1) ∧
    (∀ j : ℕ, j < 3 → ∀ k : ℕ, k < 21 → AI k j = 0) ∧
    (∀ k : ℕ, k < 21 →
      rowSum k = (AIlims.getD k (0, 0)).2 - (AIlims.getD k (0, 0)).1 + 1) := by
  have hcol : ((List.range 215).all (fun j =>
      if 3 ≤ j then colSum j == 1
      else (List.range 21).all (fun k => AI k j == 0))) = true := by decide
  have hrow : ((List.range 21).all (fun k =>
      rowSum k ==
        (AIlims.getD k (0, 0)).2 - (AIlims.getD k (0, 0)).1 + 1)) = true := by
    decide
  rw [List.all_eq_true] at hcol hrow
  refine ⟨?_, ?_, ?_⟩
  · intro j h3 h215
    have h := hcol j (List.mem_range.mpr h215)
    simp only [if_pos h3] at h
    exact eq_of_beq h
  · intro j h3 k h21
    have h := hcol j (List.mem_range.mpr (by omega : j < 215))
    have h3' : ¬3 ≤ j := by omega
    simp only [if_neg h3'] at h
    rw [List.all_eq_true] at h
    exact eq_of_beq (h k (List.mem_range.mpr h21))
  · intro k h21
    exact eq_of_beq (hrow k (List.mem_range.mpr h21))

/-- C7 witness: the boundary column (bin 4), an unassigned column (bin 1), and
the last band's row sum, each at a concrete index. -/
theorem C7_band_map_witness :
    colSum 3 = 1 ∧ AI 0 0 = 0 ∧
      rowSum 20 = (AIlims.getD 20 (0, 0)).2 - (AIlims.getD 20 (0, 0)).1 + 1 :=
  ⟨C7_band_map.1 3 (by norm_num) (by norm_num),
   C7_band_map.2.1 0 (by norm_num) 0 (by norm_num),
   C7_band_map.2.2 20 (by norm_num)⟩

/-! Estimator control-flow lemmas. -/

theorem padSpeech_length (s : List ℚ) : 42000 ≤ (padSpeech s).length := by
  unfold padSpeech
  split
  · rw [List.length_append, List.length_replicate]
    omega
  · omega

theorem padSpeech_all_zero (s : List ℚ) (h : ∀ x ∈ s, x = 0) :
    ∀ x ∈ padSpeech s, x = 0 := by
  intro x hx
  unfold padSpeech at hx
  split at hx
  · rcases List.mem_append.mp hx with h1 | h2
    · exact h x h1
    · exact List.eq_of_mem_replicate h2
  · exact h x hx

theorem innerSelf_eq_zero (s : List ℚ) (h : ∀ x ∈ s, x = 0) : innerSelf s = 0 := by
  unfold innerSelf
  apply List.sum_eq_zero
  intro y hy
  obtain ⟨x, hx, rfl⟩ := List.mem_map.mp hy
  rw [h x hx]
  ring

theorem innerSelf_append_zeros (c : List ℚ) (m : ℕ) :
    innerSelf (c ++ List.replicate m 0) = innerSelf c := by
  unfold innerSelf
  rw [List.map_append, List.sum_append, List.map_replicate]
  simp

theorem getD_append_replicate_zero (c : List ℚ) (m i : ℕ) :
    (c ++ List.replicate m (0 : ℚ)).getD i 0 = c.getD i 0 := by
  rcases lt_or_le i c.length with h | h
  · exact List.getD_append c _ 0 i h
  · rw [List.getD_append_right c _ 0 i h, List.getD_eq_default _ _ h]
    rcases lt_or_le (i - c.length) m with h2 | h2
    · rw [List.getD_eq_getElem _ _ (by simpa using h2)]
      simp
    · rw [List.getD_eq_default]
      simpa using h2

theorem lagCorr_append_zeros (c : List ℚ) (m j : ℕ) :
    lagCorr (c ++ List.replicate m 0) j = lagCorr c j := by
  unfold lagCorr
  rw [List.length_append, List.length_replicate]
  have hsub : Finset.range c.length ⊆ Finset.range (c.length + m) :=
    Finset.range_subset.mpr (Nat.le_add_right _ _)
  rw [← Finset.sum_subset hsub]
  · apply Finset.sum_congr rfl
    intro i _
    rw [getD_append_replicate_zero, getD_append_replicate_zero]
  · intro i _ hi
    rw [Finset.mem_range, not_lt] at hi
    rw [getD_append_replicate_zero, List.getD_eq_default _ _ hi]
    ring

theorem lagCorr_of_len_le (s : List ℚ) (j : ℕ) (h : s.length ≤ j) :
    lagCorr s j = 0 := by
  unfold lagCorr
  apply Finset.sum_eq_zero
  intro i _
  rw [List.getD_eq_default _ _ (le_trans h (Nat.le_add_left _ _)), mul_zero]

theorem foldl_min_le_init : ∀ (as : List ℚ) (a : ℚ), as.foldl min a ≤ a
  | [], a => le_refl a
  | b :: bs, a =>
    le_trans (foldl_min_le_init bs (min a b)) (min_le_left a b)

theorem foldl_min_le_mem : ∀ (as : List ℚ) (a x : ℚ), x ∈ as → as.foldl min a ≤ x
  | b :: bs, a, x, hx => by
    rcases List.mem_cons.mp hx with rfl | hx'
    · exact le_trans (foldl_min_le_init bs (min a x)) (min_le_right a x)
    · exact foldl_min_le_mem bs (min a b) x hx'

theorem foldl_min_mem : ∀ (as : List ℚ) (a : ℚ), as.foldl min a = a ∨ as.foldl min a ∈ as
  | [], a => Or.inl rfl
  | b :: bs, a => by
    rcases foldl_min_mem bs (min a b) with h | h
    · rcases min_choice a b with hm | hm
      · exact Or.inl (by rw [List.foldl_cons, h, hm])
      · exact Or.inr (by rw [List.foldl_cons, h, hm]; exact List.mem_cons_self b bs)
    · exact Or.inr (List.mem_cons_of_mem b h)

theorem npMin_le (l : List ℚ) (x : ℚ) (hx : x ∈ l) : npMin l ≤ x := by
  match l, hx with
  | a :: as, hx =>
    rcases List.mem_cons.mp hx with rfl | hx'
    · exact foldl_min_le_init as x
    · exact foldl_min_le_mem as a x hx'

theorem npMin_mem (l : List ℚ) (h : l ≠ []) : npMin l ∈ l := by
  match l with
  | a :: as =>
    rcases foldl_min_mem as a with h1 | h1
    · rw [npMin, h1]; exact List.mem_cons_self a as
    · rw [npMin]; exact List.mem_cons_of_mem a h1

theorem npMin_eq_of (l : List ℚ) (a : ℚ) (hmem : a ∈ l) (hlb : ∀ x ∈ l, a ≤ x) :
    npMin l = a :=
  le_antisymm (npMin_le l a hmem)
    (hlb _ (npMin_mem l (List.ne_nil_of_mem hmem)))

theorem pad_clip1 :
    padSpeech [1, 2, 2, -1] = [1, 2, 2, -1] ++ List.replicate 41996 (0 : ℚ) := by
  unfold padSpeech
  norm_num

theorem clip1_lagCorr_lb (j : ℕ) : -1 ≤ lagCorr [1, 2, 2, -1] j := by
  match j with
  | 0 => norm_num [lagCorr, Finset.sum_range_succ]
  | 1 => norm_num [lagCorr, Finset.sum_range_succ]
  | 2 => norm_num [lagCorr, Finset.sum_range_succ]
  | 3 => norm_num [lagCorr, Finset.sum_range_succ]
  | j + 4 =>
    rw [lagCorr_of_len_le _ _ (by simp)]
    norm_num

theorem clip1_lagCorr_three : lagCorr [1, 2, 2, -1] 3 = -1 := by
  norm_num [lagCorr, Finset.sum_range_succ]

theorem innerSelf_clip1 : innerSelf [1, 2, 2, -1] = 10 := by
  norm_num [innerSelf]

theorem xcm_of_inner_ne (s : List ℚ) (h : innerSelf s ≠ 0) :
    xcm s = some (npMin ((fullCorr s).map (fun c => c / innerSelf s))) := by
  unfold xcm
  rw [if_neg h]

theorem div10_lb (c : ℚ) (h : -1 ≤ c) : -(1 / 10) ≤ c / 10 := by linarith

theorem innerSelf_pad_clip1 :
    innerSelf ([1, 2, 2, -1] ++ List.replicate 41996 (0 : ℚ)) = 10 := by
  rw [innerSelf_append_zeros, innerSelf_clip1]

theorem clip1_elt :
    lagCorr ([1, 2, 2, -1] ++ List.replicate 41996 (0 : ℚ))
      ((((42002 : ℕ) : ℤ) - (((42000 : ℕ) : ℤ) - 1)).natAbs) / 10 = -(1 / 10) := by
  rw [lagCorr_append_zeros]
  norm_num [clip1_lagCorr_three]

theorem clip1_lb (k : ℕ) :
    -(1 / 10) ≤ lagCorr ([1, 2, 2, -1] ++ List.replicate 41996 (0 : ℚ))
      (((k : ℤ) - (((42000 : ℕ) : ℤ) - 1)).natAbs) / 10 := by
  rw [lagCorr_append_zeros]
  exact div10_lb _ (clip1_lagCorr_lb _)

theorem npMin_map_map_range_eq (N : ℕ) (F : ℕ → ℚ) (G : ℚ → ℚ) (a : ℚ) (k0 : ℕ)
    (hk0 : k0 < N) (hval : G (F k0) = a) (hlb : ∀ k, k < N → a ≤ G (F k)) :
    npMin (((List.range N).map F).map G) = a := by
  rw [List.map_map]
  apply npMin_eq_of
  · exact List.mem_map.mpr ⟨k0, List.mem_range.mpr hk0, hval⟩
  · intro x hx
    obtain ⟨k, hk, rfl⟩ := List.mem_map.mp hx
    exact hlb k (List.mem_range.mp hk)

/-- The minimum of the normalized full autocorrelation of the padded clip
`[1, 2, 2, -1]` is exactly `-1/10`: the boundary value of the speech gate. -/
theorem xcm_pad_clip1 : xcm (padSpeech [1, 2, 2, -1]) = some (-(1 / 10)) := by
  rw [pad_clip1]
  rw [xcm_of_inner_ne _ (by rw [innerSelf_pad_clip1]; norm_num)]
  apply congrArg some
  rw [innerSelf_pad_clip1]
  unfold fullCorr
  have hlen : ([1, 2, 2, -1] ++ List.replicate 41996 (0 : ℚ)).length = 42000 := by
    rw [List.length_append, List.length_replicate]
    norm_num
  rw [hlen]
  exact npMin_map_map_range_eq _ _ _ _ 42002 (by norm_num) clip1_elt (fun k _ => clip1_lb k)

theorem trialBranch_of_some (clip : List ℚ) (n : ℤ) :
    trialBranch clip (some n) =
      match xcm (padSpeech clip) with
      | none => TrialBranch.gated
      | some v => if -(1 / 10) < v then TrialBranch.gated else TrialBranch.scored := by
  unfold trialBranch
  rw [if_neg]
  push_neg
  constructor
  · have := padSpeech_length clip
    omega
  · simp

/-- At the boundary autocorrelation minimum, the gate does not fire and the
trial is scored. -/
theorem trialBranch_clip1 : trialBranch [1, 2, 2, -1] (some 1) = TrialBranch.scored := by
  rw [trialBranch_of_some, xcm_pad_clip1]
  norm_num

/-- C2 counterexample: the padded clip `[1, 2, 2, -1]` has normalized
autocorrelation minimum exactly `-0.1`, which satisfies the claim's `≥ -0.1`
condition, yet `process`'s gate does not fire: the trial takes the scoring
branch instead of being set to 0 (the source tests `xcm > -0.1` strictly,
ABC_MRT16.py 559). -/
theorem C2_boundary_counterexample :
    xcm (padSpeech [1, 2, 2, -1]) = some (-(1 / 10)) ∧
    -(1 / 10) ≥ (-(1 / 10) : ℚ) ∧
    trialBranch [1, 2, 2, -1] (some 1) = TrialBranch.scored :=
  ⟨xcm_pad_clip1, le_refl _, trialBranch_clip1⟩

/-- C2 (amended): the gate fires exactly when the normalized autocorrelation
minimum is strictly greater than −0.1 or is NaN (in particular, at exactly −0.1
the scoring steps run); whenever it fires, that trial's success is set to 0. -/
theorem C2_gate_strict (clip : List ℚ) (n : ℤ) (scorer : List ℚ → ℤ → ℚ) :
    (trialBranch clip (some n) = TrialBranch.gated ↔
      xcm (padSpeech clip) = none ∨
        ∃ v, xcm (padSpeech clip) = some v ∧ -(1 / 10) < v) ∧
    (trialBranch clip (some n) = TrialBranch.gated →
      trialSuccess scorer clip (some n) = some 0) := by
  constructor
  · rw [trialBranch_of_some]
    cases hx : xcm (padSpeech clip) with
    | none => simp
    | some v =>
      by_cases hv : -(1 / 10 : ℚ) < v
      · simp [hv]
      · simp [hv]
  · intro h
    unfold trialSuccess
    rw [h]

/-- C2 witness: an all-zero clip has NaN autocorrelation minimum, the gate
fires, and the trial's success is 0. -/
theorem C2_gate_strict_witness :
    trialBranch [(0 : ℚ)] (some 1) = TrialBranch.gated ∧
    trialSuccess (fun _ _ => 0) [(0 : ℚ)] (some 1) = some 0 := by
  have h := C2_gate_strict [(0 : ℚ)] 1 (fun _ _ => 0)
  have hx : xcm (padSpeech [(0 : ℚ)]) = none := by
    rw [xcm, if_pos]
    exact innerSelf_eq_zero _ (padSpeech_all_zero _ (by simp))
  have hg := h.1.mpr (Or.inl hx)
  exact ⟨hg, h.2 hg⟩

theorem xcm_all_zero (clip : List ℚ) (h : ∀ x ∈ clip, x = 0) :
    xcm (padSpeech clip) = none := by
  rw [xcm, if_pos (innerSelf_eq_zero _ (padSpeech_all_zero _ h))]

theorem trialBranch_all_zero (clip : List ℚ) (n : ℤ) (h : ∀ x ∈ clip, x = 0) :
    trialBranch clip (some n) = TrialBranch.gated := by
  rw [trialBranch_of_some, xcm_all_zero clip h]

theorem trialSuccess_all_zero (scorer : List ℚ → ℤ → ℚ) (clip : List ℚ) (n : ℤ)
    (h : ∀ x ∈ clip, x = 0) :
    trialSuccess scorer clip (some n) = some 0 := by
  unfold trialSuccess
  rw [trialBranch_all_zero clip n h]

theorem trialSuccess_fileNaN (scorer : List ℚ → ℤ → ℚ) (clip : List ℚ) :
    trialSuccess scorer clip none = none := by
  unfold trialSuccess trialBranch
  simp

/-- C1: contrary to the claim, an empty speech clip does *not* produce a NaN
trial: `_padSpeech` zero-pads every clip to length 42000 before the emptiness
check of ABC_MRT16.py line 548 runs, so the check is dead for empty clips; the
all-zero padded clip then has NaN normalized autocorrelation, the speech gate
fires, and the trial's success is 0, not NaN. -/
theorem C1_empty_clip_scores_zero (scorer : List ℚ → ℤ → ℚ) (n : ℤ) :
    (process scorer [[]] [some n]).2 = [some 0] ∧
      (some (0 : ℚ) ≠ (none : Option ℚ)) := by
  refine ⟨?_, by simp⟩
  show [trialSuccess scorer [] (some n)] = [some 0]
  rw [trialSuccess_all_zero scorer [] n (by simp)]

theorem nanAdd_none_left (o : Option ℚ) : nanAdd none o = none := by
  cases o <;> rfl

theorem nanAdd_none_right (o : Option ℚ) : nanAdd o none = none := by
  cases o <;> rfl

/-- `np.sum` of a list of NaN-free values each equal to 0 is 0. -/
theorem nanSum_all_zero : ∀ l : List (Option ℚ), (∀ o ∈ l, o = some 0) →
    nanSum l = some 0
  | [], _ => rfl
  | o :: rest, h => by
    rw [nanSum, h o (List.mem_cons_self o rest),
      nanSum_all_zero rest (fun x hx => h x (List.mem_cons_of_mem o hx))]
    show some (0 + 0) = some 0
    norm_num

/-- A NaN member poisons `np.sum`. -/
theorem nanSum_eq_none_of_mem : ∀ l : List (Option ℚ), none ∈ l → nanSum l = none
  | o :: rest, h => by
    rcases List.mem_cons.mp h with h1 | h2
    · rw [nanSum, ← h1]
      exact nanAdd_none_left _
    · rw [nanSum, nanSum_eq_none_of_mem rest h2]
      exact nanAdd_none_right _

theorem nanMean_eq_none_of_mem (l : List (Option ℚ)) (h : none ∈ l) :
    nanMean l = none := by
  rw [nanMean, nanSum_eq_none_of_mem l h]

/-- C4: `phi_hat` equals `guess_correction` applied to the batch mean of the
trial successes, and the mean is not NaN-skipping: one NaN trial success makes
the returned `phi_hat` NaN. -/
theorem C4_phi_hat_nan_poisoning (scorer : List ℚ → ℤ → ℚ)
    (speech : List (List ℚ)) (file_num : List (Option ℤ)) :
    (process scorer speech file_num).1 =
      Option.map guess_correction (nanMean (process scorer speech file_num).2) ∧
    ∀ s ∈ (process scorer speech file_num).2, s = none →
      (process scorer speech file_num).1 = none := by
  refine ⟨rfl, ?_⟩
  intro s hs hnone
  subst hnone
  have h1 : (process scorer speech file_num).1 =
      Option.map guess_correction (nanMean (process scorer speech file_num).2) := rfl
  rw [h1, nanMean_eq_none_of_mem _ hs]
  rfl

/-- C4 witness: a batch whose single trial has a NaN file number returns a NaN
`phi_hat`. -/
theorem C4_phi_hat_nan_poisoning_witness :
    (process (fun _ _ => 0) [[0]] [none]).1 = none := by
  apply (C4_phi_hat_nan_poisoning (fun _ _ => 0) [[0]] [none]).2 none ?_ rfl
  show none ∈ [trialSuccess (fun _ _ => 0) [0] none]
  rw [trialSuccess_fileNaN]
  exact List.mem_singleton.mpr rfl

/-- C10: `guess_correction` is not clamped below zero: `guess_correction 0 =
-1/5`, so a batch whose clips are all gated as non-speech (for example,
all-zero clips) returns `phi_hat = -0.2` rather than 0. -/
theorem C10_all_gated_negative_phi (scorer : List ℚ → ℤ → ℚ)
    (speech : List (List ℚ)) (file_num : List ℤ)
    (hne : speech ≠ []) (hlen : file_num.length = speech.length)
    (hz : ∀ c ∈ speech, ∀ x ∈ c, x = 0) :
    guess_correction 0 = -(1 / 5) ∧
    (process scorer speech (file_num.map some)).1 = some (-(1 / 5)) := by
  refine ⟨by norm_num [guess_correction], ?_⟩
  show Option.map guess_correction (nanMean _) = _
  set l := (speech.zip (file_num.map some)).map
    (fun p => trialSuccess scorer p.1 p.2) with hl
  have hall : ∀ o ∈ l, o = some 0 := by
    intro o ho
    rw [hl] at ho
    obtain ⟨p, hp, rfl⟩ := List.mem_map.mp ho
    obtain ⟨hp1, hp2⟩ := List.of_mem_zip hp
    obtain ⟨m, _, heq⟩ := List.mem_map.mp hp2
    rw [← heq]
    exact trialSuccess_all_zero scorer p.1 m (hz p.1 hp1)
  have hlen' : l.length ≠ 0 := by
    rw [hl]
    simp only [List.length_map, List.length_zip, List.length_map, hlen]
    rcases speech with _ | ⟨c, cs⟩
    · exact absurd rfl hne
    · simp
  rw [nanMean, nanSum_all_zero l hall]
  show Option.map guess_correction
    (if l.length = 0 then none else some (0 / (l.length : ℚ))) = some (-(1 / 5))
  rw [if_neg hlen']
  show some (guess_correction (0 / (l.length : ℚ))) = some (-(1 / 5))
  rw [zero_div]
  norm_num [guess_correction]

/-- C10 witness: a batch of one all-zero clip. -/
theorem C10_all_gated_negative_phi_witness :
    guess_correction 0 = -(1 / 5) ∧
    (process (fun _ _ => 0) [[0]] ([1].map some)).1 = some (-(1 / 5)) :=
  C10_all_gated_negative_phi (fun _ _ => 0) [[0]] [1] (by simp) (by simp)
    (by intro c hc x hx; rw [List.mem_singleton] at hc; subst hc; simpa using hx)

/-! Aligner lemmas over `ℝ`. -/

theorem runSum_eq (X : ℕ → ℕ → ℝ) (q : ℕ) : ∀ (i a : ℕ),
    runSum X q i a = ∑ j ∈ Finset.range q, X a (i + j)
  | 0, a => by
    rw [runSum]
    exact Finset.sum_congr rfl (fun j _ => by rw [Nat.zero_add])
  | i + 1, a => by
    show runSum X q i a - X a i + X a (i + q) = ∑ j ∈ Finset.range q, X a (i + 1 + j)
    rw [runSum_eq X q i a]
    have h1 : ∑ j ∈ Finset.range (q + 1), X a (i + j) =
        (∑ j ∈ Finset.range q, X a (i + j)) + X a (i + q) :=
      Finset.sum_range_succ _ q
    have h2 : ∑ j ∈ Finset.range (q + 1), X a (i + j) =
        (∑ j ∈ Finset.range q, X a (i + (j + 1))) + X a i :=
      Finset.sum_range_succ' _ q
    have h3 : ∑ j ∈ Finset.range q, X a (i + 1 + j) =
        ∑ j ∈ Finset.range q, X a (i + (j + 1)) :=
      Finset.sum_congr rfl (fun j _ => by rw [show i + 1 + j = i + (j + 1) by omega])
    rw [h3]
    linarith

theorem getD_map_range (N : ℕ) (f : ℕ → ℝ) (i : ℕ) (hi : i < N) :
    ((List.range N).map f).getD i 0 = f i := by
  rw [List.getD_eq_getElem _ _ (by simpa using hi)]
  simp

/-- The score the aligner records at shift `i` from its incrementally
maintained running sum equals the inner product of the `_TFnorm`-normalized
slice at offset `i` with the reference. -/
theorem scores_getD (r n q : ℕ) (X R : ℕ → ℕ → ℝ) (i : ℕ) (hi : i < n - q + 1) :
    (groupCorrScores r n q X R).getD i 0 =
      ∑ a ∈ Finset.range r, ∑ j ∈ Finset.range q,
        TFnorm q (sliceAt X i) a j * R a j := by
  unfold groupCorrScores
  rw [getD_map_range _ _ i hi]
  unfold shiftScore
  apply Finset.sum_congr rfl
  intro a _
  apply Finset.sum_congr rfl
  intro j _
  rw [runSum_eq X q i a]
  rfl

theorem rowEnergy_nonneg (q : ℕ) (S : ℕ → ℕ → ℝ) (a : ℕ) : 0 ≤ rowEnergy q S a :=
  Finset.sum_nonneg (fun _ _ => sq_nonneg _)

/-- A row of a `_TFnorm`-normalized matrix has unit sum of squares whenever its
centered energy is nonzero. -/
theorem TFnorm_unit (q : ℕ) (S : ℕ → ℕ → ℝ) (a : ℕ) (hE : rowEnergy q S a ≠ 0) :
    ∑ j ∈ Finset.range q, (TFnorm q S a j) ^ 2 = 1 := by
  unfold TFnorm
  have h1 : ∀ j ∈ Finset.range q,
      ((S a j - rowMean q S a) / Real.sqrt (rowEnergy q S a)) ^ 2 =
        (S a j - rowMean q S a) ^ 2 / Real.sqrt (rowEnergy q S a) ^ 2 :=
    fun j _ => div_pow _ _ 2
  rw [Finset.sum_congr rfl h1, ← Finset.sum_div,
    Real.sq_sqrt (rowEnergy_nonneg q S a)]
  exact div_self hE

theorem row_inner_le_one (q : ℕ) (u v : ℕ → ℝ)
    (hu : ∑ j ∈ Finset.range q, u j ^ 2 = 1)
    (hv : ∑ j ∈ Finset.range q, v j ^ 2 = 1) :
    ∑ j ∈ Finset.range q, u j * v j ≤ 1 := by
  have h := Finset.sum_mul_sq_le_sq_mul_sq (Finset.range q) u v
  rw [hu, hv, one_mul] at h
  have habs := (sq_le_one_iff_abs_le_one _).mp h
  exact le_trans (le_abs_self _) habs

/-- The aligner score of any normalized slice against a row-normalized
reference is at most the number of rows. -/
theorem score_le_card (r q : ℕ) (U V : ℕ → ℕ → ℝ)
    (hU : ∀ a, a < r → ∑ j ∈ Finset.range q, (U a j) ^ 2 = 1)
    (hV : ∀ a, a < r → ∑ j ∈ Finset.range q, (V a j) ^ 2 = 1) :
    ∑ a ∈ Finset.range r, ∑ j ∈ Finset.range q, U a j * V a j ≤ (r : ℝ) := by
  have h : ∀ a ∈ Finset.range r,
      ∑ j ∈ Finset.range q, U a j * V a j ≤ 1 := by
    intro a ha
    exact row_inner_le_one q (U a) (V a) (hU a (Finset.mem_range.mp ha))
      (hV a (Finset.mem_range.mp ha))
  calc ∑ a ∈ Finset.range r, ∑ j ∈ Finset.range q, U a j * V a j
      ≤ ∑ _a ∈ Finset.range r, (1 : ℝ) := Finset.sum_le_sum h
    _ = (r : ℝ) := by simp

/-- The aligner score of a row-normalized reference against itself equals the
number of rows. -/
theorem score_self (r q : ℕ) (V : ℕ → ℕ → ℝ)
    (hV : ∀ a, a < r → ∑ j ∈ Finset.range q, (V a j) ^ 2 = 1) :
    ∑ a ∈ Finset.range r, ∑ j ∈ Finset.range q, V a j * V a j = (r : ℝ) := by
  have h : ∀ a ∈ Finset.range r,
      ∑ j ∈ Finset.range q, V a j * V a j = 1 := by
    intro a ha
    rw [Finset.sum_congr rfl (fun j _ => (sq (V a j)).symm)]
    exact hV a (Finset.mem_range.mp ha)
  rw [Finset.sum_congr rfl h]
  simp

/-- `np.nanargmax` on NaN-free data returns the first index attaining the
maximum. -/
theorem argmaxFirst_eq (l : List ℝ) (i0 : ℕ) (h0 : i0 < l.length)
    (hmax : ∀ j, j < l.length → l.getD j 0 ≤ l.getD i0 0)
    (hfirst : ∀ j, j < i0 → l.getD j 0 < l.getD i0 0) :
    argmaxFirst l = i0 := by
  unfold argmaxFirst
  refine le_antisymm (Nat.sInf_le ?_) (le_csInf ⟨i0, ?_⟩ ?_)
  · exact ⟨h0, hmax⟩
  · exact ⟨h0, hmax⟩
  · intro m hm
    obtain ⟨hmlen, hmmax⟩ := hm
    by_contra hlt
    push_neg at hlt
    have h1 := hfirst m hlt
    have h2 := hmmax i0 h0
    linarith

/-- C6: for every shift `i`, the incrementally maintained running column sum of
`_group_corr` equals the directly computed column sum of the width-`q` slice at
offset `i`, and consequently the score recorded at shift `i` equals the inner
product of the `_TFnorm`-row-normalized slice with the reference. -/
theorem C6_incremental_sum_refines_direct (r n q : ℕ) (X R : ℕ → ℕ → ℝ) (i : ℕ)
    (hi : i < n - q + 1) :
    (∀ a, runSum X q i a = ∑ j ∈ Finset.range q, X a (i + j)) ∧
    (groupCorrScores r n q X R).getD i 0 =
      ∑ a ∈ Finset.range r, ∑ j ∈ Finset.range q,
        TFnorm q (sliceAt X i) a j * R a j :=
  ⟨fun a => runSum_eq X q i a, scores_getD r n q X R i hi⟩

/-- C6 witness at the concrete one-row window `X1 = [[0, 1, 0]]`, reference
equal to the normalized slice at offset 1, shift 1. -/
theorem C6_incremental_sum_refines_direct_witness :
    (∀ a, runSum X1 2 1 a = ∑ j ∈ Finset.range 2, X1 a (1 + j)) ∧
    (groupCorrScores 1 3 2 X1 (TFnorm 2 (sliceAt X1 1))).getD 1 0 =
      ∑ a ∈ Finset.range 1, ∑ j ∈ Finset.range 2,
        TFnorm 2 (sliceAt X1 1) a j * TFnorm 2 (sliceAt X1 1) a j :=
  C6_incremental_sum_refines_direct 1 3 2 X1 (TFnorm 2 (sliceAt X1 1)) 1 (by norm_num)

/-! Concrete aligner evaluation on `X1`. -/

theorem X1_mean0 : rowMean 2 (sliceAt X1 0) 0 = 1 / 2 := by
  norm_num [rowMean, sliceAt, X1, Finset.sum_range_succ]

theorem X1_mean1 : rowMean 2 (sliceAt X1 1) 0 = 1 / 2 := by
  norm_num [rowMean, sliceAt, X1, Finset.sum_range_succ]

theorem X1_energy0 : rowEnergy 2 (sliceAt X1 0) 0 = 1 / 2 := by
  rw [rowEnergy, Finset.sum_range_succ, Finset.sum_range_succ,
    Finset.sum_range_zero, X1_mean0]
  norm_num [sliceAt, X1]

theorem X1_energy1 : rowEnergy 2 (sliceAt X1 1) 0 = 1 / 2 := by
  rw [rowEnergy, Finset.sum_range_succ, Finset.sum_range_succ,
    Finset.sum_range_zero, X1_mean1]
  norm_num [sliceAt, X1]

theorem X1_unit (i : ℕ) (hi : i < 2) :
    ∑ j ∈ Finset.range 2, (TFnorm 2 (sliceAt X1 i) 0 j) ^ 2 = 1 := by
  interval_cases i
  · exact TFnorm_unit 2 _ 0 (by rw [X1_energy0]; norm_num)
  · exact TFnorm_unit 2 _ 0 (by rw [X1_energy1]; norm_num)

theorem X1_score1 :
    (groupCorrScores 1 3 2 X1 (TFnorm 2 (sliceAt X1 1))).getD 1 0 = 1 := by
  rw [scores_getD 1 3 2 _ _ 1 (by norm_num)]
  have h := score_self 1 2 (TFnorm 2 (sliceAt X1 1))
    (fun a ha => by interval_cases a; exact X1_unit 1 (by norm_num))
  rw [h]
  norm_num

theorem X1_score0 :
    (groupCorrScores 1 3 2 X1 (TFnorm 2 (sliceAt X1 1))).getD 0 0 = -1 := by
  rw [scores_getD 1 3 2 _ _ 0 (by norm_num)]
  rw [Finset.sum_range_succ, Finset.sum_range_zero, zero_add,
    Finset.sum_range_succ, Finset.sum_range_succ, Finset.sum_range_zero, zero_add]
  unfold TFnorm
  rw [X1_mean0, X1_mean1, X1_energy0, X1_energy1]
  have hk : Real.sqrt (1 / 2) ^ 2 = 1 / 2 := Real.sq_sqrt (by norm_num)
  have hkne : Real.sqrt (1 / 2) ≠ 0 := by
    intro h
    rw [h] at hk
    norm_num at hk
  have h00 : sliceAt X1 0 0 0 = 0 := rfl
  have h01 : sliceAt X1 0 0 1 = 1 := rfl
  have h10 : sliceAt X1 1 0 0 = 1 := rfl
  have h11 : sliceAt X1 1 0 1 = 0 := rfl
  rw [h00, h01, h10, h11]
  have h2 : Real.sqrt 2 * Real.sqrt 2 = 2 := Real.mul_self_sqrt (by norm_num)
  field_simp
  nlinarith [h2, hk]

/-- C3 counterexample: with the one-row window `X1 = [[0, 1, 0]]` and the
reference sliced (and normalized) from offset `s0 = 1`, `_group_corr` returns
0, not 1: the function subtracts one from the maximizing shift
(ABC_MRT16.py 792). -/
theorem C3_aligner_counterexample :
    group_corr 1 3 2 X1 (TFnorm 2 (sliceAt X1 1)) = 0 ∧ (0 : ℤ) ≠ 1 := by
  refine ⟨?_, by decide⟩
  have hlen : (groupCorrScores 1 3 2 X1 (TFnorm 2 (sliceAt X1 1))).length = 2 := by
    unfold groupCorrScores
    simp
  have harg : argmaxFirst (groupCorrScores 1 3 2 X1 (TFnorm 2 (sliceAt X1 1))) = 1 := by
    apply argmaxFirst_eq
    · rw [hlen]
      norm_num
    · intro j hj
      rw [hlen] at hj
      interval_cases j
      · rw [X1_score0, X1_score1]
        norm_num
      · exact le_refl _
    · intro j hj
      interval_cases j
      rw [X1_score0, X1_score1]
      norm_num
  unfold group_corr
  rw [harg]
  norm_num

/-- C3 (amended): if the reference window is the `_TFnorm`-normalized width-`q`
slice taken at offset `s0` of `X`, no slice of `X` has a constant row (so no
score is NaN), and every shift before `s0` scores strictly below the score at
`s0`, then `_group_corr` returns exactly `s0 - 1` (the maximizing shift is
`s0`; the source subtracts one before returning, and its caller adds one back
when slicing). -/
theorem C3_aligner_returns_s0_minus_one (r n q s0 : ℕ) (X : ℕ → ℕ → ℝ)
    (hs0 : s0 + q ≤ n)
    (hnd : ∀ i, i < n - q + 1 → ∀ a, a < r → rowEnergy q (sliceAt X i) a ≠ 0)
    (hfirst : ∀ i, i < s0 →
      (groupCorrScores r n q X (TFnorm q (sliceAt X s0))).getD i 0 <
        (groupCorrScores r n q X (TFnorm q (sliceAt X s0))).getD s0 0) :
    group_corr r n q X (TFnorm q (sliceAt X s0)) = (s0 : ℤ) - 1 := by
  have hs0' : s0 < n - q + 1 := by omega
  have hlen : (groupCorrScores r n q X (TFnorm q (sliceAt X s0))).length = n - q + 1 := by
    unfold groupCorrScores
    simp
  have hunit : ∀ i, i < n - q + 1 → ∀ a, a < r →
      ∑ j ∈ Finset.range q, (TFnorm q (sliceAt X i) a j) ^ 2 = 1 :=
    fun i hi a ha => TFnorm_unit q _ a (hnd i hi a ha)
  have hself : (groupCorrScores r n q X (TFnorm q (sliceAt X s0))).getD s0 0 = (r : ℝ) := by
    rw [scores_getD r n q X _ s0 hs0']
    exact score_self r q _ (fun a ha => hunit s0 hs0' a ha)
  have hmax : ∀ j, j < (groupCorrScores r n q X (TFnorm q (sliceAt X s0))).length →
      (groupCorrScores r n q X (TFnorm q (sliceAt X s0))).getD j 0 ≤
        (groupCorrScores r n q X (TFnorm q (sliceAt X s0))).getD s0 0 := by
    intro j hj
    rw [hlen] at hj
    rw [scores_getD r n q X _ j hj, hself]
    exact score_le_card r q _ _ (fun a ha => hunit j hj a ha)
      (fun a ha => hunit s0 hs0' a ha)
  have harg : argmaxFirst (groupCorrScores r n q X (TFnorm q (sliceAt X s0))) = s0 :=
    argmaxFirst_eq _ s0 (by rw [hlen]; exact hs0') hmax hfirst
  unfold group_corr
  rw [harg]

/-- C3 witness: the amended theorem applied at the concrete window `X1`,
`s0 = 1`, recovering the counterexample's value `1 - 1 = 0`. -/
theorem C3_aligner_returns_s0_minus_one_witness :
    group_corr 1 3 2 X1 (TFnorm 2 (sliceAt X1 1)) = (1 : ℤ) - 1 := by
  apply C3_aligner_returns_s0_minus_one 1 3 2 1 X1 (by norm_num)
  · intro i hi a ha
    interval_cases a
    interval_cases i
    · rw [X1_energy0]; norm_num
    · rw [X1_energy1]; norm_num
  · intro i hi
    interval_cases i
    rw [X1_score0, X1_score1]
    norm_num

end ABCMRT
